import Mathlib

/-!
Shallow embedding of `manager_rest/resources.py` (cloudify-manager REST
service): the blueprint-upload pipeline (`BlueprintsUpload`), the helper
`verify_and_convert_bool`, the `exceptions_handled` decorator, and the
resource handlers for node-instance patch, workflow execution and workflow
listing.  Filesystem effects are modelled by an explicit association list
from paths (lists of name components) to nodes; external collaborators
(blueprints manager, storage manager, workflow engine) are parameters.
-/

namespace ManagerRest

/-- Filesystem paths are modelled as lists of name components. -/
abbrev FsPath := List String

/-- Render a path the way Python would show it inside a format string. -/
def pathStr (p : FsPath) : String := String.intercalate "/" p

/-- Filesystem nodes: a regular file with contents, a directory, or a zip
archive recording the archive-internal paths of its members (the arcnames
passed to `ZipFile.write`). -/
inductive FSNode where
  | file (content : String)
  | dir
  | zipArchive (entries : List FsPath)
deriving DecidableEq, Repr

/-- A filesystem is an association list from paths to nodes; the first
entry for a path is its current node (`writeNode` removes older ones). -/
structure FS where
  entries : List (FsPath × FSNode)
deriving DecidableEq, Repr

namespace FS

/-- os.path.exists: some entry is recorded at exactly this path. -/
def existsPath (fs : FS) (p : FsPath) : Bool :=
  fs.entries.any (fun e => e.1 == p)

/-- Current node at a path, if any. -/
def lookup (fs : FS) (p : FsPath) : Option FSNode :=
  (fs.entries.find? (fun e => e.1 == p)).map (fun e => e.2)

/-- os.path.isdir. -/
def isDir (fs : FS) (p : FsPath) : Bool :=
  fs.lookup p == some FSNode.dir

/-- os.path.isfile. -/
def isFile (fs : FS) (p : FsPath) : Bool :=
  match fs.lookup p with
  | some (FSNode.file _) => true
  | _ => false

/-- Write (create or overwrite) a node at a path. -/
def writeNode (fs : FS) (p : FsPath) (n : FSNode) : FS :=
  ⟨(p, n) :: fs.entries.filter (fun e => e.1 != p)⟩

/-- os.makedirs / tempfile.mkdtemp: record a directory at the path. -/
def mkdir (fs : FS) (p : FsPath) : FS := fs.writeNode p FSNode.dir

/-- os.remove: drop the entry at exactly this path. -/
def removeFile (fs : FS) (p : FsPath) : FS :=
  ⟨fs.entries.filter (fun e => e.1 != p)⟩

/-- shutil.rmtree: drop the directory and everything below it. -/
def rmtree (fs : FS) (p : FsPath) : FS :=
  ⟨fs.entries.filter (fun e => !(p.isPrefixOf e.1))⟩

/-- shutil.move of a tree to a fresh destination path: every path below
`src` is re-rooted below `dst`. -/
def move (fs : FS) (src dst : FsPath) : FS :=
  ⟨fs.entries.map (fun e =>
    if src.isPrefixOf e.1 then (dst ++ e.1.drop src.length, e.2) else e)⟩

/-- os.listdir: the names of the immediate children of `p`, each once. -/
def listdir (fs : FS) (p : FsPath) : List String :=
  (fs.entries.filterMap (fun e =>
    match e.1.drop p.length with
    | [n] => if e.1.take p.length == p then some n else none
    | _ => none)).dedup

end FS

/-- Error taxonomy of `manager_exceptions` as raised by `resources.py`,
together with Python's builtin `RuntimeError` which the final archive move
raises; every constructor carries the message string. -/
inductive ManagerError where
  | conflict (msg : String)
  | notFound (msg : String)
  | dependentExists (msg : String)
  | nonexistentWorkflow (msg : String)
  | badParameters (msg : String)
  | unsupportedContentType (msg : String)
  | invalidBlueprint (msg : String)
  | existingRunningExecution (msg : String)
  | deploymentWorkersNotYetInstalled (msg : String)
  | missingExecutionParameters (msg : String)
  | illegalAction (msg : String)
  | runtimeError (msg : String)
deriving DecidableEq, Repr

/-- Membership in the except-clause of the `exceptions_handled` decorator:
every `manager_exceptions` kind listed there is handled, `RuntimeError`
is not. -/
def isHandledError : ManagerError → Bool
  | ManagerError.conflict _ => true
  | ManagerError.notFound _ => true
  | ManagerError.dependentExists _ => true
  | ManagerError.nonexistentWorkflow _ => true
  | ManagerError.badParameters _ => true
  | ManagerError.unsupportedContentType _ => true
  | ManagerError.invalidBlueprint _ => true
  | ManagerError.existingRunningExecution _ => true
  | ManagerError.deploymentWorkersNotYetInstalled _ => true
  | ManagerError.missingExecutionParameters _ => true
  | ManagerError.illegalAction _ => true
  | ManagerError.runtimeError _ => false

/-- Outcome of running a handler under `exceptions_handled`: a normal
return, an `abort_error` response for a handled exception, or an
exception escaping the decorator. -/
inductive HandledOutcome (α : Type) where
  | success (a : α)
  | aborted (e : ManagerError)
  | escaped (e : ManagerError)
deriving DecidableEq, Repr

/-- The `exceptions_handled` decorator: handled kinds become an
`abort_error` response, anything else propagates. -/
def exceptionsHandled {α : Type} : Except ManagerError α → HandledOutcome α
  | Except.ok a => HandledOutcome.success a
  | Except.error e =>
    if isHandledError e then HandledOutcome.aborted e else HandledOutcome.escaped e

/-- JSON values as delivered by `request.json`: the Python classes relevant
to the type checks in `resources.py` (`NoneType`, `bool`, `int`, `str`,
`list`, `dict`). -/
inductive JsonValue where
  | null
  | bool (b : Bool)
  | int (n : Int)
  | str (s : String)
  | list (xs : List JsonValue)
  | obj (fields : List (String × JsonValue))

namespace JsonValue

/-- Python `x.__class__ is dict`. -/
def isDict : JsonValue → Bool
  | obj _ => true
  | _ => false

/-- Field lookup in a JSON object; a JSON parse keeps the last binding of
a duplicated key, so the last one wins. Non-objects have no fields. -/
def getField? : JsonValue → String → Option JsonValue
  | obj fields, k => (fields.reverse.find? (fun f => f.1 == k)).map (fun f => f.2)
  | _, _ => none

/-- Python `x.__class__.__name__` for the classes modelled here. -/
def typeName : JsonValue → String
  | null => "NoneType"
  | bool _ => "bool"
  | int _ => "int"
  | str _ => "str"
  | list _ => "list"
  | obj _ => "dict"

end JsonValue

/-- A published blueprint as returned by the blueprints manager; only the
identifier is inspected by `resources.py` on the upload path. -/
structure Blueprint where
  id : String
deriving DecidableEq, Repr

/-- An execution record as returned by the blueprints manager. -/
structure Execution where
  id : String
  status : String
deriving DecidableEq, Repr

/-- A deployment record as loaded from storage: its id, the id of the
blueprint it came from, and its stored plan. -/
structure Deployment where
  id : String
  blueprint_id : String
  plan : JsonValue

/-- The `responses.Workflow` payload built by `DeploymentsIdWorkflows.get`:
a name and a creation timestamp (always passed as `None` there). -/
structure Workflow where
  name : String
  created_at : Option String
deriving DecidableEq, Repr

/-- The response of `DeploymentsIdWorkflows.get`. -/
structure WorkflowsResponse where
  workflows : List Workflow
  blueprint_id : String
  deployment_id : String
deriving DecidableEq, Repr

/-- Hexadecimal digit value, as recognised by `urllib.unquote`. -/
def hexVal (c : Char) : Option Nat :=
  if '0' ≤ c ∧ c ≤ '9' then some (c.toNat - '0'.toNat)
  else if 'a' ≤ c ∧ c ≤ 'f' then some (c.toNat - 'a'.toNat + 10)
  else if 'A' ≤ c ∧ c ≤ 'F' then some (c.toNat - 'A'.toNat + 10)
  else none

/-- Percent-decoding on character lists: a `%` followed by two hex digits
becomes the encoded character, malformed escapes are kept verbatim,
mirroring `urllib.unquote`. -/
def unquoteChars : List Char → List Char
  | [] => []
  | '%' :: h1 :: h2 :: rest =>
    match hexVal h1, hexVal h2 with
    | some a, some b => Char.ofNat (16 * a + b) :: unquoteChars rest
    | _, _ => '%' :: unquoteChars (h1 :: h2 :: rest)
  | c :: rest => c :: unquoteChars rest

/-- `urllib.unquote` on a string. -/
def urlUnquote (s : String) : String := (unquoteChars s.data).asString

/-- Python str.lower lowercases every character. -/
def strToLower (s : String) : String := (s.data.map Char.toLower).asString

/-- The `verify_and_convert_bool` helper: case-insensitive true/false,
anything else raises `BadParametersError`. -/
def verifyAndConvertBool (attributeName : String) (strBool : String) :
    Except ManagerError Bool :=
  if strToLower strBool == "true" then Except.ok true
  else if strToLower strBool == "false" then Except.ok false
  else Except.error (ManagerError.badParameters
    (attributeName ++ " must be <true/false>, got " ++ strBool))

/-- The `verify_json_content_type` helper. -/
def verifyJsonContentType (contentType : String) : Except ManagerError Unit :=
  if contentType != "application/json" then
    Except.error (ManagerError.unsupportedContentType
      "Content type must be application/json")
  else Except.ok ()

/-- The conventional entry-document name (`CONVENTION_APPLICATION_BLUEPRINT_FILE`). -/
def conventionApplicationBlueprintFile : String := "blueprint.yaml"

/-- The configuration record consulted by the upload pipeline
(`config.instance()`). -/
structure Config where
  file_server_root : FsPath
  file_server_blueprints_folder : String
  file_server_uploaded_blueprints_folder : String
  file_server_base_uri : String

/-- An inbound blueprint-upload request: whether a Transfer-Encoding header
is present, the body bytes (for the chunked case, the already-decoded
stream contents), and the raw, still URL-encoded value of the
`application_file_name` query argument when supplied. -/
structure UploadRequest where
  transferEncoding : Bool
  data : String
  applicationFileName : Option String

/-- `BlueprintsUpload._save_file_locally`: write the body to the scratch
file; a buffered request with an empty body raises `BadParametersError`. -/
def saveFileLocally (req : UploadRequest) (archiveFileName : FsPath) (fs : FS) :
    Except ManagerError FS :=
  if req.transferEncoding then
    Except.ok (fs.writeNode archiveFileName (FSNode.file req.data))
  else if req.data == "" then
    Except.error (ManagerError.badParameters
      "Missing application archive in request body")
  else
    Except.ok (fs.writeNode archiveFileName (FSNode.file req.data))

/-- State of the filesystem right after `tar.extractall(tempdir)`: the
fresh extraction directory plus the archive members placed below it.  The
archive is modelled by its member list (paths relative to the archive
root). -/
def extractedState (tempdir : FsPath) (archive : List (FsPath × FSNode)) (fs : FS) : FS :=
  archive.foldl (fun acc e => acc.writeNode (tempdir ++ e.1) e.2) (fs.mkdir tempdir)

/-- `BlueprintsUpload._extract_file_to_file_server`: extract into a fresh
temporary directory, require exactly one top-level entry that is a
directory, rename it with a unique suffix, move it into the file-server
root, and always remove the temporary directory (the finally block). -/
def extractFileToFileServer (fileServerRoot tempdir : FsPath)
    (archive : List (FsPath × FSNode)) (uuid4 : String) (fs : FS) :
    Except ManagerError String × FS :=
  let fs2 := extractedState tempdir archive fs
  let archiveFileList := fs2.listdir tempdir
  if archiveFileList.length != 1 ||
      !(fs2.isDir (tempdir ++ [archiveFileList.headD ""])) then
    (Except.error (ManagerError.badParameters
        "archive must contain exactly 1 directory"),
      fs2.rmtree tempdir)
  else
    let applicationDirBaseName := archiveFileList.headD ""
    let generatedAppDirName := applicationDirBaseName ++ "-" ++ uuid4
    let fs3 := fs2.move (tempdir ++ [applicationDirBaseName])
      (tempdir ++ [generatedAppDirName])
    let fs4 := fs3.move (tempdir ++ [generatedAppDirName])
      (fileServerRoot ++ [generatedAppDirName])
    (Except.ok generatedAppDirName, fs4.rmtree tempdir)

/-- `BlueprintsUpload._extract_application_file`: an explicit
`application_file_name` argument is URL-decoded and joined under the
application directory with no existence check; otherwise the conventional
`blueprint.yaml` must exist directly inside the staged directory. -/
def extractApplicationFile (fileServerRoot : FsPath) (applicationDir : String)
    (applicationFileNameArg : Option String) (fs : FS) :
    Except ManagerError String :=
  match applicationFileNameArg with
  | some raw => Except.ok (applicationDir ++ "/" ++ urlUnquote raw)
  | none =>
    if fs.isFile (fileServerRoot ++ [applicationDir,
        conventionApplicationBlueprintFile]) then
      Except.ok (applicationDir ++ "/" ++ conventionApplicationBlueprintFile)
    else
      Except.error (ManagerError.badParameters
        ("Missing application_file_name query parameter or " ++
         "application directory is missing blueprint.yaml"))

/-- Result of `get_blueprints_manager().publish_blueprint` (an external
collaborator): a published blueprint, a `DslParseException` with its
detail, or some other manager error (for example a conflict on the id). -/
inductive PublishOutcome where
  | published (bp : Blueprint)
  | dslParseError (detail : String)
  | failed (e : ManagerError)

/-- `BlueprintsUpload._zip_dir`: archive every file below `dirToZip` into a
zip at `targetZipPath`; each arcname is the file path relative to the
parent of `dirToZip`, so it starts with the basename of `dirToZip`. -/
def FS.zipDir (fs : FS) (dirToZip targetZipPath : FsPath) : FS :=
  let pluginDirBaseName := dirToZip.getLastD ""
  let arcEntries := fs.entries.filterMap (fun e =>
    match e.2 with
    | FSNode.file _ =>
      if dirToZip.isPrefixOf e.1 then
        some (pluginDirBaseName :: e.1.drop dirToZip.length)
      else none
    | _ => none)
  fs.writeNode targetZipPath (FSNode.zipArchive arcEntries)

/-- Path of `blueprints/{id}/plugins` below the file-server root (the
folder name `blueprints` is a literal in `_process_plugins`). -/
def pluginsDirectoryOf (fileServerRoot : FsPath) (blueprintId : String) : FsPath :=
  fileServerRoot ++ ["blueprints", blueprintId, "plugins"]

/-- `BlueprintsUpload._process_plugins`: if the published blueprint has a
`plugins` directory, zip every immediate subdirectory into an archive
named after it, written alongside inside the plugins directory. -/
def FS.processPlugins (fs : FS) (fileServerRoot : FsPath) (blueprintId : String) : FS :=
  let pluginsDirectory := pluginsDirectoryOf fileServerRoot blueprintId
  if !(fs.isDir pluginsDirectory) then fs
  else
    let plugins := (fs.listdir pluginsDirectory).filter
      (fun d => fs.isDir (pluginsDirectory ++ [d]))
    plugins.foldl (fun acc d =>
      acc.zipDir (pluginsDirectory ++ [d]) (pluginsDirectory ++ [d ++ ".zip"])) fs

/-- `BlueprintsUpload._prepare_and_submit_blueprint`: resolve the entry
document, hand the dsl url to the external blueprints manager, then on
success move the staged directory under the blueprints folder and process
plugins; on a `DslParseException` remove the staged directory and raise
`InvalidBlueprintError`; other manager errors propagate unchanged. -/
def prepareAndSubmitBlueprint (cfg : Config) (applicationDir : String)
    (applicationFileNameArg : Option String)
    (publish : String → PublishOutcome) (fs : FS) :
    Except ManagerError Blueprint × FS :=
  match extractApplicationFile cfg.file_server_root applicationDir
      applicationFileNameArg fs with
  | Except.error e => (Except.error e, fs)
  | Except.ok applicationFile =>
    let dslPath := cfg.file_server_base_uri ++ "/" ++ applicationFile
    match publish dslPath with
    | PublishOutcome.published bp =>
      let fs1 := fs.move (cfg.file_server_root ++ [applicationDir])
        (cfg.file_server_root ++ [cfg.file_server_blueprints_folder, bp.id])
      let fs2 := fs1.processPlugins cfg.file_server_root bp.id
      (Except.ok bp, fs2)
    | PublishOutcome.dslParseError detail =>
      (Except.error (ManagerError.invalidBlueprint
          ("Invalid blueprint - " ++ detail)),
        fs.rmtree (cfg.file_server_root ++ [applicationDir]))
    | PublishOutcome.failed e => (Except.error e, fs)

/-- `BlueprintsUpload._move_archive_to_uploaded_blueprints_dir`: a missing
source archive raises a plain `RuntimeError`; otherwise the archive is
moved to `uploaded-blueprints/{id}/{id}.tar.gz`. -/
def moveArchiveToUploadedBlueprintsDir (blueprintId : String) (cfg : Config)
    (archivePath : FsPath) (fs : FS) : Except ManagerError FS :=
  if fs.existsPath archivePath = false then
    Except.error (ManagerError.runtimeError
      ("Archive [" ++ pathStr archivePath ++ "] doesn\x27t exist - " ++
       "Cannot move archive to uploaded blueprints directory"))
  else
    let uploadedBlueprintDir := cfg.file_server_root ++
      [cfg.file_server_uploaded_blueprints_folder, blueprintId]
    let archiveFileName := blueprintId ++ ".tar.gz"
    Except.ok ((fs.mkdir uploadedBlueprintDir).move archivePath
      (uploadedBlueprintDir ++ [archiveFileName]))

/-- Body of the try block of `BlueprintsUpload.do_request`: receive the
archive, extract it, prepare and submit the blueprint, move the archive
to the uploaded-blueprints directory, return the blueprint with 201. -/
def doRequestInner (cfg : Config) (req : UploadRequest)
    (archiveTargetPath tempdir : FsPath) (archive : List (FsPath × FSNode))
    (uuid4 : String) (publish : String → PublishOutcome) (fs : FS) :
    Except ManagerError (Blueprint × Nat) × FS :=
  match saveFileLocally req archiveTargetPath fs with
  | Except.error e => (Except.error e, fs)
  | Except.ok fsA =>
    match extractFileToFileServer cfg.file_server_root tempdir archive uuid4 fsA with
    | (Except.error e, fsB) => (Except.error e, fsB)
    | (Except.ok applicationDir, fsB) =>
      match prepareAndSubmitBlueprint cfg applicationDir
          req.applicationFileName publish fsB with
      | (Except.error e, fsC) => (Except.error e, fsC)
      | (Except.ok blueprint, fsC) =>
        match moveArchiveToUploadedBlueprintsDir blueprint.id cfg
            archiveTargetPath fsC with
        | Except.error e => (Except.error e, fsC)
        | Except.ok fsD => (Except.ok (blueprint, 201), fsD)

/-- `BlueprintsUpload.do_request`: the try body followed by the finally
block, which removes the scratch archive file if it still exists. -/
def doRequest (cfg : Config) (req : UploadRequest)
    (archiveTargetPath tempdir : FsPath) (archive : List (FsPath × FSNode))
    (uuid4 : String) (publish : String → PublishOutcome) (fs : FS) :
    Except ManagerError (Blueprint × Nat) × FS :=
  let r := doRequestInner cfg req archiveTargetPath tempdir archive uuid4 publish fs
  let fsFinal :=
    if r.2.existsPath archiveTargetPath then r.2.removeFile archiveTargetPath
    else r.2
  (r.1, fsFinal)

/-- `NodeInstancesId.patch`: content type must be json, the body must be a
dict with an int `version`; on success the update payload handed to
`get_storage_manager().update_node_instance` is returned (version,
runtime_properties, state). -/
def nodeInstancesIdPatch (contentType : String) (body : JsonValue) :
    Except ManagerError (Int × Option JsonValue × Option JsonValue) :=
  match verifyJsonContentType contentType with
  | Except.error e => Except.error e
  | Except.ok _ =>
    if body.isDict = false then
      Except.error (ManagerError.badParameters
        ("Request body is expected to be a map containing a \"version\" " ++
         "field and optionally \"runtimeProperties\" and/or \"state\" fields"))
    else
      match body.getField? "version" with
      | none =>
        Except.error (ManagerError.badParameters
          "Request body must be a map containing a \"version\" field")
      | some (JsonValue.int v) =>
        Except.ok (v, body.getField? "runtime_properties", body.getField? "state")
      | some other =>
        Except.error (ManagerError.badParameters
          ("request body\x27s \x27version\x27 field must be an int but" ++
           " is of type " ++ other.typeName))

/-- `DeploymentsIdExecutions.post`: verify content type and the presence
of `workflow_id`, convert the `force` query argument (default false),
reject a present non-null `parameters` value that is not a dict, then
dispatch to the external `execute_workflow` collaborator and return the
execution with 201. -/
def deploymentsIdExecutionsPost (contentType : String) (body : JsonValue)
    (forceArg : Option String) (deploymentId : String)
    (executeWorkflow : String → JsonValue → Option JsonValue → Bool →
      Except ManagerError Execution) :
    Except ManagerError (Execution × Nat) :=
  match verifyJsonContentType contentType with
  | Except.error e => Except.error e
  | Except.ok _ =>
    match body.getField? "workflow_id" with
    | none =>
      Except.error (ManagerError.badParameters
        "Missing workflow_id in json request body")
    | some workflowId =>
      match verifyAndConvertBool "force" (forceArg.getD "false") with
      | Except.error e => Except.error e
      | Except.ok force =>
        let kwargs : Option JsonValue :=
          match body.getField? "parameters" with
          | some JsonValue.null => none
          | x => x
        match kwargs with
        | some k =>
          if k.isDict = false then
            Except.error (ManagerError.badParameters
              ("request body\x27s \x27parameters\x27 field must be a dict but" ++
               " is of type " ++ k.typeName))
          else
            (executeWorkflow deploymentId workflowId kwargs force).map
              (fun e => (e, 201))
        | none =>
          (executeWorkflow deploymentId workflowId kwargs force).map
            (fun e => (e, 201))

/-- `DeploymentsId.delete`: convert the `ignore_live_nodes` query argument
(default the string false) and hand the flag to the external
`delete_deployment` collaborator, returning the deployment with 200. -/
def deploymentsIdDelete (ignoreLiveNodesArg : Option String)
    (deploymentId : String)
    (deleteDeployment : String → Bool → Except ManagerError Deployment) :
    Except ManagerError (Deployment × Nat) :=
  match verifyAndConvertBool "ignore_live_nodes"
      (ignoreLiveNodesArg.getD "false") with
  | Except.error e => Except.error e
  | Except.ok b => (deleteDeployment deploymentId b).map (fun d => (d, 200))

/-- `DeploymentsIdWorkflows.get` on a loaded deployment: one `Workflow`
per key of the `workflows` mapping of the stored plan, each with an absent
creation timestamp, plus the deployment and blueprint identifiers.  A plan
without a `workflows` mapping would raise an untyped Python error. -/
def deploymentsIdWorkflowsGet (deployment : Deployment) :
    Except ManagerError WorkflowsResponse :=
  match deployment.plan.getField? "workflows" with
  | some (JsonValue.obj fields) =>
    Except.ok (WorkflowsResponse.mk
      (fields.map (fun f => Workflow.mk f.1 none))
      deployment.blueprint_id
      deployment.id)
  | _ => Except.error (ManagerError.runtimeError "plan has no workflows mapping")

/-- Property that a zip archive for a plugin directory with the given
basename sits at `target`: every archived entry path starts with that
basename (a relative path, never an absolute one). -/
def zipOk (fs : FS) (target : FsPath) (base : String) : Prop :=
  ∃ es, fs.lookup target = some (FSNode.zipArchive es) ∧
    ∀ p ∈ es, p.headD "" = base

/-- Example configuration used by concrete evaluations. -/
def cfgEx : Config :=
  Config.mk ["root"] "blueprints" "uploaded-blueprints" "http://localhost:53229"

/-- Example external delete-deployment collaborator. -/
def delEx : String → Bool → Except ManagerError Deployment :=
  fun i _ => Except.ok (Deployment.mk i "bp1" JsonValue.null)

/-- Example external execute-workflow collaborator. -/
def execWorkflowEx : String → JsonValue → Option JsonValue → Bool →
    Except ManagerError Execution :=
  fun _ _ _ _ => Except.ok (Execution.mk "exec1" "pending")

/-- Example filesystem with a published blueprint that bundles plugins. -/
def fsPlugEx : FS := ⟨[
  (["root", "blueprints", "bp", "plugins"], FSNode.dir),
  (["root", "blueprints", "bp", "plugins", "p1"], FSNode.dir),
  (["root", "blueprints", "bp", "plugins", "p1", "lib", "a.py"], FSNode.file "x"),
  (["root", "blueprints", "bp", "plugins", "p1", "setup.py"], FSNode.file "y"),
  (["root", "blueprints", "bp", "plugins", "readme.txt"], FSNode.file "z")]⟩

/-- Example filesystem with a staged application directory holding the
conventional entry document. -/
def fsConvEx : FS := ⟨[
  (["root", "app-1"], FSNode.dir),
  (["root", "app-1", "blueprint.yaml"], FSNode.file "tosca")]⟩

/-- Example request body for a workflow execution. -/
def bodyExecEx : JsonValue :=
  JsonValue.obj [("workflow_id", JsonValue.str "install")]

/-- Example request body whose parameters field is a list. -/
def bodyExecBadEx : JsonValue :=
  JsonValue.obj [("workflow_id", JsonValue.str "install"),
    ("parameters", JsonValue.list [JsonValue.int 1])]

/-- Example request body whose parameters field is a mapping. -/
def bodyExecOkEx : JsonValue :=
  JsonValue.obj [("workflow_id", JsonValue.str "install"),
    ("parameters", JsonValue.obj [("key", JsonValue.str "value")])]

/-- Example external blueprints manager that raises a parse error. -/
def publishFailEx : String → PublishOutcome :=
  fun _ => PublishOutcome.dslParseError "expected one of type, interface"

/-- Example deployment whose plan carries two workflows. -/
def deploymentEx : Deployment :=
  Deployment.mk "d1" "bp1" (JsonValue.obj
    [("workflows", JsonValue.obj
      [("install", JsonValue.obj []), ("uninstall", JsonValue.obj [])])])

section FSLemmas

theorem existsPath_filter_removed (l : List (FsPath × FSNode)) (pred : FsPath × FSNode → Bool)
    (p : FsPath) (h : ∀ e : FsPath × FSNode, e.1 = p → pred e = false) :
    (FS.mk (l.filter pred)).existsPath p = false := by
  simp only [FS.existsPath, List.any_eq_true, not_exists]
  simp only [Bool.not_eq_true, List.any_eq_false]
  intro e he
  rw [List.mem_filter] at he
  by_contra hbe
  rw [Bool.not_eq_false, beq_iff_eq] at hbe
  have := h e hbe
  rw [this] at he
  exact Bool.false_ne_true he.2

/-- After `rmtree p`, no path below `p` (inclusive) exists. -/
theorem existsPath_rmtree (fs : FS) (p q : FsPath) (h : p.isPrefixOf q = true) :
    (fs.rmtree p).existsPath q = false := by
  apply existsPath_filter_removed
  intro e he
  rw [he, h]
  rfl

/-- After `removeFile p`, the path `p` no longer exists. -/
theorem existsPath_removeFile (fs : FS) (p : FsPath) :
    (fs.removeFile p).existsPath p = false := by
  apply existsPath_filter_removed
  intro e he
  rw [bne_eq_false_iff_eq, he]

/-- Every list is a prefix of itself (boolean form). -/
theorem isPrefixOf_self (p : FsPath) : p.isPrefixOf p = true := by
  induction p with
  | nil => rfl
  | cons a t ih => simp [List.isPrefixOf, ih]

/-- Filtering out the key `p` does not affect a lookup of a different key. -/
theorem find?_filter_ne (l : List (FsPath × FSNode)) (p q : FsPath) (h : q ≠ p) :
    (l.filter (fun e => e.1 != p)).find? (fun e => e.1 == q) =
      l.find? (fun e => e.1 == q) := by
  induction l with
  | nil => rfl
  | cons a t ih =>
    by_cases ha : a.1 = p
    · have haq : (a.1 == q) = false := by
        rw [beq_eq_false_iff_ne, ha]
        exact fun hpq => h hpq.symm
      have hanep : (a.1 != p) = false := by simp [ha]
      simp only [List.filter_cons, hanep, List.find?_cons, haq, cond_false]
      exact ih
    · have hanep : (a.1 != p) = true := by simp [ha]
      by_cases haq : a.1 = q
      · have hbq : (a.1 == q) = true := beq_iff_eq.mpr haq
        simp only [List.filter_cons, hanep, List.find?_cons, hbq, cond_true,
          if_true, eq_self_iff_true]
      · have hbq : (a.1 == q) = false := beq_eq_false_iff_ne.mpr haq
        simp only [List.filter_cons, hanep, List.find?_cons, hbq, cond_false,
          if_true, eq_self_iff_true]
        exact ih

/-- Lookup at the freshly written path. -/
theorem lookup_writeNode_self (fs : FS) (p : FsPath) (n : FSNode) :
    (fs.writeNode p n).lookup p = some n := by
  simp [FS.writeNode, FS.lookup, List.find?_cons]

/-- Lookup at a different path is unaffected by a write. -/
theorem lookup_writeNode_ne (fs : FS) (p q : FsPath) (n : FSNode) (h : q ≠ p) :
    (fs.writeNode p n).lookup q = fs.lookup q := by
  have hpq : (p == q) = false := by
    rw [beq_eq_false_iff_ne]
    exact fun hpq => h hpq.symm
  simp [FS.writeNode, FS.lookup, List.find?_cons, hpq, find?_filter_ne fs.entries p q h]

/-- String append cancels on the right. -/
theorem string_append_right_cancel (s t u : String) (h : s ++ u = t ++ u) : s = t := by
  have hd : s.data ++ u.data = t.data ++ u.data := by
    have := congrArg String.data h
    simpa [String.data_append] using this
  exact String.ext (List.append_cancel_right hd)

/-- The zip written by `zipDir` sits at its target path and every archived
entry path starts with the basename of the zipped directory. -/
theorem zipDir_establishes (fs : FS) (dirToZip target : FsPath) :
    zipOk (fs.zipDir dirToZip target) target (dirToZip.getLastD "") := by
  refine ⟨fs.entries.filterMap (fun e =>
    match e.2 with
    | FSNode.file _ =>
      if dirToZip.isPrefixOf e.1 then
        some (dirToZip.getLastD "" :: e.1.drop dirToZip.length)
      else none
    | _ => none), ?_, ?_⟩
  · simp only [FS.zipDir]
    exact lookup_writeNode_self _ _ _
  · intro p hp
    rcases List.mem_filterMap.mp hp with ⟨e, _, he⟩
    rcases e with ⟨q, n⟩
    cases n with
    | file c =>
      simp only at he
      by_cases hpre : dirToZip.isPrefixOf q = true
      · rw [if_pos hpre] at he
        cases he
        rfl
      · rw [if_neg hpre] at he
        cases he
    | dir => cases he
    | zipArchive es => cases he

/-- A zip written for a different target leaves an established zip fact
untouched; a zip written for the same plugin name re-establishes it. -/
theorem zipOk_step (fs : FS) (pluginsDirectory : FsPath) (d d2 : String)
    (h : zipOk fs (pluginsDirectory ++ [d ++ ".zip"]) d) :
    zipOk (fs.zipDir (pluginsDirectory ++ [d2]) (pluginsDirectory ++ [d2 ++ ".zip"]))
      (pluginsDirectory ++ [d ++ ".zip"]) d := by
  by_cases hd : d2 = d
  · subst hd
    have hbase : (pluginsDirectory ++ [d2]).getLastD "" = d2 :=
      List.getLastD_concat _ _ _
    have := zipDir_establishes fs (pluginsDirectory ++ [d2])
      (pluginsDirectory ++ [d2 ++ ".zip"])
    rwa [hbase] at this
  · have hne : pluginsDirectory ++ [d ++ ".zip"] ≠ pluginsDirectory ++ [d2 ++ ".zip"] := by
      intro hEq
      have h1 : [d ++ ".zip"] = [d2 ++ ".zip"] := List.append_cancel_left hEq
      have h2 : d ++ ".zip" = d2 ++ ".zip" := by
        injection h1 with h2 _
      exact hd (string_append_right_cancel d d2 ".zip" h2).symm
    rcases h with ⟨es, hes, hall⟩
    refine ⟨es, ?_, hall⟩
    rw [FS.zipDir, lookup_writeNode_ne _ _ _ _ hne]
    exact hes

/-- An established zip fact survives the remaining zipping steps. -/
theorem zipOk_foldl_preserve (pluginsDirectory : FsPath) (d : String)
    (l : List String) (fs : FS)
    (h : zipOk fs (pluginsDirectory ++ [d ++ ".zip"]) d) :
    zipOk (l.foldl (fun acc d2 =>
        acc.zipDir (pluginsDirectory ++ [d2]) (pluginsDirectory ++ [d2 ++ ".zip"])) fs)
      (pluginsDirectory ++ [d ++ ".zip"]) d := by
  induction l generalizing fs with
  | nil => exact h
  | cons a t ih =>
    exact ih _ (zipOk_step fs pluginsDirectory d a h)

/-- After zipping every plugin in the list, each listed plugin has its zip
with relative entry paths. -/
theorem zipOk_foldl_mem (pluginsDirectory : FsPath) (l : List String)
    (fs : FS) (d : String) (hd : d ∈ l) :
    zipOk (l.foldl (fun acc d2 =>
        acc.zipDir (pluginsDirectory ++ [d2]) (pluginsDirectory ++ [d2 ++ ".zip"])) fs)
      (pluginsDirectory ++ [d ++ ".zip"]) d := by
  induction l generalizing fs with
  | nil => cases hd
  | cons a t ih =>
    rcases List.mem_cons.mp hd with rfl | hmem
    · have hbase : (pluginsDirectory ++ [d]).getLastD "" = d :=
        List.getLastD_concat _ _ _
      have hest := zipDir_establishes fs (pluginsDirectory ++ [d])
        (pluginsDirectory ++ [d ++ ".zip"])
      rw [hbase] at hest
      exact zipOk_foldl_preserve pluginsDirectory d t _ hest
    · exact ih _ hmem

end FSLemmas

/-- Whenever a field lookup succeeds the value was a Python dict. -/
theorem getField_some_isDict (body : JsonValue) (k : String) (v : JsonValue)
    (h : body.getField? k = some v) : body.isDict = true := by
  cases body <;> first
    | rfl
    | exact absurd h (by simp [JsonValue.getField?])

/-- C10: the boolean query parameters of the public interface
(ignore_live_nodes on deployment deletion, force on workflow execution)
are parsed case-insensitively, so any capitalization of true or false is
accepted and converted to the corresponding boolean; every other string
makes the operation fail with BadParameters before the underlying
deletion or execution collaborator is invoked (the result is the same for
every collaborator), and both parameters default to false when omitted. -/
theorem c10_bool_query_params (s deploymentId : String)
    (del : String → Bool → Except ManagerError Deployment)
    (execFn : String → JsonValue → Option JsonValue → Bool →
      Except ManagerError Execution)
    (body w : JsonValue)
    (hw : body.getField? "workflow_id" = some w)
    (hp : body.getField? "parameters" = none) :
    (strToLower s = "true" →
      verifyAndConvertBool "ignore_live_nodes" s = Except.ok true ∧
      verifyAndConvertBool "force" s = Except.ok true) ∧
    (strToLower s = "false" →
      verifyAndConvertBool "ignore_live_nodes" s = Except.ok false ∧
      verifyAndConvertBool "force" s = Except.ok false) ∧
    (strToLower s ≠ "true" → strToLower s ≠ "false" →
      (deploymentsIdDelete (some s) deploymentId del =
        Except.error (ManagerError.badParameters
          ("ignore_live_nodes" ++ " must be <true/false>, got " ++ s)) ∧
      deploymentsIdExecutionsPost "application/json" body (some s) deploymentId execFn =
        Except.error (ManagerError.badParameters
          ("force" ++ " must be <true/false>, got " ++ s)))) ∧
    deploymentsIdDelete none deploymentId del =
      (del deploymentId false).map (fun d => (d, 200)) ∧
    deploymentsIdExecutionsPost "application/json" body none deploymentId execFn =
      (execFn deploymentId w none false).map (fun e => (e, 201)) := by
  have hvb : ∀ a : String, verifyAndConvertBool a "false" = Except.ok false := by
    intro a
    rfl
  refine ⟨?_, ?_, ?_, ?_, ?_⟩
  · intro h
    constructor <;> simp [verifyAndConvertBool, h]
  · intro h
    constructor <;> simp [verifyAndConvertBool, h]
  · intro h1 h2
    have b1 : (strToLower s == "true") = false := beq_eq_false_iff_ne.mpr h1
    have b2 : (strToLower s == "false") = false := beq_eq_false_iff_ne.mpr h2
    constructor
    · simp [deploymentsIdDelete, verifyAndConvertBool, b1, b2]
    · simp [deploymentsIdExecutionsPost, verifyJsonContentType, hw,
        verifyAndConvertBool, b1, b2]
  · simp [deploymentsIdDelete, hvb]
  · simp [deploymentsIdExecutionsPost, verifyJsonContentType, hw, hp, hvb]

/-- C10 witness: concrete evaluations of the three behaviours. -/
theorem c10_witness :
    verifyAndConvertBool "force" "TrUe" = Except.ok true ∧
    verifyAndConvertBool "ignore_live_nodes" "FALSE" = Except.ok false ∧
    deploymentsIdDelete (some "yes") "d1" delEx =
      Except.error (ManagerError.badParameters
        ("ignore_live_nodes" ++ " must be <true/false>, got " ++ "yes")) ∧
    deploymentsIdDelete none "d1" delEx = (delEx "d1" false).map (fun d => (d, 200)) ∧
    deploymentsIdExecutionsPost "application/json" bodyExecEx none "d1" execWorkflowEx =
      (execWorkflowEx "d1" (JsonValue.str "install") none false).map (fun e => (e, 201)) := by
  have h1 := c10_bool_query_params "TrUe" "d1" delEx execWorkflowEx bodyExecEx
    (JsonValue.str "install") rfl rfl
  have h2 := c10_bool_query_params "FALSE" "d1" delEx execWorkflowEx bodyExecEx
    (JsonValue.str "install") rfl rfl
  have h3 := c10_bool_query_params "yes" "d1" delEx execWorkflowEx bodyExecEx
    (JsonValue.str "install") rfl rfl
  exact ⟨(h1.1 rfl).2, (h2.2.1 rfl).1,
    (h3.2.2.1 (by decide) (by decide)).1, h3.2.2.2.1, h3.2.2.2.2⟩

/-- C6: with an explicit application_file_name the resolver URL-decodes it
and joins it under the staged directory with no existence check (the
result is independent of the filesystem); without one, blueprint.yaml
must exist directly inside the staged directory, else BadParameters. -/
theorem c6_entry_document_resolution (fileServerRoot : FsPath)
    (applicationDir raw : String) (fs : FS) :
    extractApplicationFile fileServerRoot applicationDir (some raw) fs =
      Except.ok (applicationDir ++ "/" ++ urlUnquote raw) ∧
    (fs.isFile (fileServerRoot ++ [applicationDir, conventionApplicationBlueprintFile]) = true →
      extractApplicationFile fileServerRoot applicationDir none fs =
        Except.ok (applicationDir ++ "/" ++ conventionApplicationBlueprintFile)) ∧
    (fs.isFile (fileServerRoot ++ [applicationDir, conventionApplicationBlueprintFile]) = false →
      extractApplicationFile fileServerRoot applicationDir none fs =
        Except.error (ManagerError.badParameters
          ("Missing application_file_name query parameter or " ++
           "application directory is missing blueprint.yaml"))) := by
  refine ⟨rfl, ?_, ?_⟩
  · intro h
    simp [extractApplicationFile, h]
  · intro h
    simp [extractApplicationFile, h]

/-- C6 witness: concrete resolutions with and without the query argument. -/
theorem c6_witness :
    extractApplicationFile ["root"] "app-1" (some "dir%2Fmain.yaml") fsConvEx =
      Except.ok ("app-1" ++ "/" ++ urlUnquote "dir%2Fmain.yaml") ∧
    extractApplicationFile ["root"] "app-1" none fsConvEx =
      Except.ok ("app-1" ++ "/" ++ conventionApplicationBlueprintFile) ∧
    extractApplicationFile ["root"] "app-2" none fsConvEx =
      Except.error (ManagerError.badParameters
        ("Missing application_file_name query parameter or " ++
         "application directory is missing blueprint.yaml")) := by
  exact ⟨(c6_entry_document_resolution ["root"] "app-1" "dir%2Fmain.yaml" fsConvEx).1,
    (c6_entry_document_resolution ["root"] "app-1" "dir%2Fmain.yaml" fsConvEx).2.1 rfl,
    (c6_entry_document_resolution ["root"] "app-2" "dir%2Fmain.yaml" fsConvEx).2.2 rfl⟩

/-- C9: listing the workflows of an existing deployment returns exactly
the keys of the workflows map of its stored plan, each with an absent
creation timestamp, together with the deployment id and blueprint id. -/
theorem c9_list_workflows (deployment : Deployment)
    (fields : List (String × JsonValue))
    (h : deployment.plan.getField? "workflows" = some (JsonValue.obj fields)) :
    deploymentsIdWorkflowsGet deployment =
      Except.ok (WorkflowsResponse.mk
        (fields.map (fun f => Workflow.mk f.1 none))
        deployment.blueprint_id deployment.id) ∧
    (fields.map (fun f => Workflow.mk f.1 none)).map Workflow.name =
      fields.map Prod.fst ∧
    ∀ wf ∈ fields.map (fun f => Workflow.mk f.1 none), wf.created_at = none := by
  refine ⟨?_, ?_, ?_⟩
  · simp [deploymentsIdWorkflowsGet, h]
  · simp [List.map_map]
  · intro wf hwf
    rcases List.mem_map.mp hwf with ⟨f, _, rfl⟩
    rfl

/-- C9 witness: concrete deployment with two workflows in its plan. -/
theorem c9_witness :
    deploymentsIdWorkflowsGet deploymentEx =
      Except.ok (WorkflowsResponse.mk
        [Workflow.mk "install" none, Workflow.mk "uninstall" none] "bp1" "d1") := by
  have h := (c9_list_workflows deploymentEx
    [("install", JsonValue.obj []), ("uninstall", JsonValue.obj [])] rfl).1
  exact h

/-- C3: when the uploaded archive no longer exists at its scratch path at
final-move time, the move raises a plain RuntimeError whose kind is
outside the handled-exception set of the exceptions_handled decorator, so
it escapes rather than becoming a typed user-facing error; the model is a
single attempt, so no retry happens. -/
theorem c3_missing_archive_fatal (blueprintId : String) (cfg : Config)
    (archivePath : FsPath) (fs : FS)
    (h : fs.existsPath archivePath = false) :
    moveArchiveToUploadedBlueprintsDir blueprintId cfg archivePath fs =
      Except.error (ManagerError.runtimeError
        ("Archive [" ++ pathStr archivePath ++ "] doesn\x27t exist - " ++
         "Cannot move archive to uploaded blueprints directory")) ∧
    isHandledError (ManagerError.runtimeError
      ("Archive [" ++ pathStr archivePath ++ "] doesn\x27t exist - " ++
       "Cannot move archive to uploaded blueprints directory")) = false ∧
    exceptionsHandled (moveArchiveToUploadedBlueprintsDir blueprintId cfg archivePath fs) =
      HandledOutcome.escaped (ManagerError.runtimeError
        ("Archive [" ++ pathStr archivePath ++ "] doesn\x27t exist - " ++
         "Cannot move archive to uploaded blueprints directory")) := by
  have h1 : moveArchiveToUploadedBlueprintsDir blueprintId cfg archivePath fs =
      Except.error (ManagerError.runtimeError
        ("Archive [" ++ pathStr archivePath ++ "] doesn\x27t exist - " ++
         "Cannot move archive to uploaded blueprints directory")) := by
    simp [moveArchiveToUploadedBlueprintsDir, h]
  refine ⟨h1, rfl, ?_⟩
  rw [h1]
  rfl

/-- C3 witness: concrete filesystem without the scratch archive. -/
theorem c3_witness :
    moveArchiveToUploadedBlueprintsDir "bp" cfgEx ["root", "scratch1"] fsConvEx =
      Except.error (ManagerError.runtimeError
        ("Archive [" ++ pathStr ["root", "scratch1"] ++ "] doesn\x27t exist - " ++
         "Cannot move archive to uploaded blueprints directory")) ∧
    exceptionsHandled (moveArchiveToUploadedBlueprintsDir "bp" cfgEx
        ["root", "scratch1"] fsConvEx) =
      HandledOutcome.escaped (ManagerError.runtimeError
        ("Archive [" ++ pathStr ["root", "scratch1"] ++ "] doesn\x27t exist - " ++
         "Cannot move archive to uploaded blueprints directory")) := by
  have h := c3_missing_archive_fatal "bp" cfgEx ["root", "scratch1"] fsConvEx rfl
  exact ⟨h.1, h.2.2⟩

/-- C7: a node-instance update whose body is not a map, lacks a version
key, or carries a non-int version fails with BadParameters carrying a
message naming the violated condition, and the storage compare-and-swap
update is never built; a well-typed body reaches the update with its
version and optional fields. -/
theorem c7_patch_version_validation (body v : JsonValue) (n : Int) :
    (body.isDict = false →
      nodeInstancesIdPatch "application/json" body =
        Except.error (ManagerError.badParameters
          ("Request body is expected to be a map containing a \"version\" " ++
           "field and optionally \"runtimeProperties\" and/or \"state\" fields"))) ∧
    (body.isDict = true → body.getField? "version" = none →
      nodeInstancesIdPatch "application/json" body =
        Except.error (ManagerError.badParameters
          "Request body must be a map containing a \"version\" field")) ∧
    (body.getField? "version" = some v → (∀ m : Int, v ≠ JsonValue.int m) →
      nodeInstancesIdPatch "application/json" body =
        Except.error (ManagerError.badParameters
          ("request body\x27s \x27version\x27 field must be an int but" ++
           " is of type " ++ v.typeName))) ∧
    (body.getField? "version" = some (JsonValue.int n) →
      nodeInstancesIdPatch "application/json" body =
        Except.ok (n, body.getField? "runtime_properties", body.getField? "state")) := by
  refine ⟨?_, ?_, ?_, ?_⟩
  · intro h
    simp [nodeInstancesIdPatch, verifyJsonContentType, h]
  · intro h hv
    simp [nodeInstancesIdPatch, verifyJsonContentType, h, hv]
  · intro hv hne
    have hd := getField_some_isDict body "version" v hv
    cases v with
    | int m => exact absurd rfl (hne m)
    | null => simp [nodeInstancesIdPatch, verifyJsonContentType, hd, hv, JsonValue.typeName]
    | bool b => simp [nodeInstancesIdPatch, verifyJsonContentType, hd, hv, JsonValue.typeName]
    | str s => simp [nodeInstancesIdPatch, verifyJsonContentType, hd, hv, JsonValue.typeName]
    | list xs => simp [nodeInstancesIdPatch, verifyJsonContentType, hd, hv, JsonValue.typeName]
    | obj fs2 => simp [nodeInstancesIdPatch, verifyJsonContentType, hd, hv, JsonValue.typeName]
  · intro hv
    have hd := getField_some_isDict body "version" (JsonValue.int n) hv
    simp [nodeInstancesIdPatch, verifyJsonContentType, hd, hv]

/-- C7 witness: the four body shapes evaluated concretely. -/
theorem c7_witness :
    nodeInstancesIdPatch "application/json" (JsonValue.list []) =
      Except.error (ManagerError.badParameters
        ("Request body is expected to be a map containing a \"version\" " ++
         "field and optionally \"runtimeProperties\" and/or \"state\" fields")) ∧
    nodeInstancesIdPatch "application/json" (JsonValue.obj [("state", JsonValue.str "started")]) =
      Except.error (ManagerError.badParameters
        "Request body must be a map containing a \"version\" field") ∧
    nodeInstancesIdPatch "application/json" (JsonValue.obj [("version", JsonValue.str "3")]) =
      Except.error (ManagerError.badParameters
        ("request body\x27s \x27version\x27 field must be an int but" ++
         " is of type " ++ (JsonValue.str "3").typeName)) ∧
    nodeInstancesIdPatch "application/json"
        (JsonValue.obj [("version", JsonValue.int 3), ("state", JsonValue.str "started")]) =
      Except.ok (3,
        (JsonValue.obj [("version", JsonValue.int 3), ("state", JsonValue.str "started")]).getField?
          "runtime_properties",
        (JsonValue.obj [("version", JsonValue.int 3), ("state", JsonValue.str "started")]).getField?
          "state") := by
  refine ⟨(c7_patch_version_validation (JsonValue.list []) JsonValue.null 0).1 rfl,
    (c7_patch_version_validation (JsonValue.obj [("state", JsonValue.str "started")])
      JsonValue.null 0).2.1 rfl rfl,
    (c7_patch_version_validation (JsonValue.obj [("version", JsonValue.str "3")])
      (JsonValue.str "3") 0).2.2.1 rfl ?_,
    (c7_patch_version_validation
      (JsonValue.obj [("version", JsonValue.int 3), ("state", JsonValue.str "started")])
      JsonValue.null 3).2.2.2 rfl⟩
  intro m hm
  cases hm

/-- C8: a workflow-execution request whose parameters field is present,
non-null and not a mapping fails with BadParameters for every engine
collaborator, so no execution is created or dispatched; with a mapping or
an absent field the check passes and the created execution is returned
with the 201 creation signal. -/
theorem c8_execute_workflow_parameters (body k w : JsonValue)
    (deploymentId : String)
    (execFn : String → JsonValue → Option JsonValue → Bool →
      Except ManagerError Execution)
    (ex : Execution) :
    (body.getField? "workflow_id" = some w → body.getField? "parameters" = some k →
      k ≠ JsonValue.null → k.isDict = false →
      deploymentsIdExecutionsPost "application/json" body none deploymentId execFn =
        Except.error (ManagerError.badParameters
          ("request body\x27s \x27parameters\x27 field must be a dict but" ++
           " is of type " ++ k.typeName))) ∧
    (body.getField? "workflow_id" = some w → body.getField? "parameters" = some k →
      k.isDict = true → execFn deploymentId w (some k) false = Except.ok ex →
      deploymentsIdExecutionsPost "application/json" body none deploymentId execFn =
        Except.ok (ex, 201)) ∧
    (body.getField? "workflow_id" = some w → body.getField? "parameters" = none →
      execFn deploymentId w none false = Except.ok ex →
      deploymentsIdExecutionsPost "application/json" body none deploymentId execFn =
        Except.ok (ex, 201)) := by
  have hvb : verifyAndConvertBool "force" "false" = Except.ok false := rfl
  refine ⟨?_, ?_, ?_⟩
  · intro hw hp hnull hdict
    cases k with
    | null => exact absurd rfl hnull
    | bool b =>
      simp [deploymentsIdExecutionsPost, verifyJsonContentType, hw, hp, hvb,
        JsonValue.typeName, JsonValue.isDict]
    | int m =>
      simp [deploymentsIdExecutionsPost, verifyJsonContentType, hw, hp, hvb,
        JsonValue.typeName, JsonValue.isDict]
    | str s =>
      simp [deploymentsIdExecutionsPost, verifyJsonContentType, hw, hp, hvb,
        JsonValue.typeName, JsonValue.isDict]
    | list xs =>
      simp [deploymentsIdExecutionsPost, verifyJsonContentType, hw, hp, hvb,
        JsonValue.typeName, JsonValue.isDict]
    | obj fs2 => simp [JsonValue.isDict] at hdict
  · intro hw hp hdict hengine
    cases k with
    | obj fs2 =>
      simp [deploymentsIdExecutionsPost, verifyJsonContentType, hw, hp, hvb,
        JsonValue.isDict, hengine, Except.map]
    | null => simp [JsonValue.isDict] at hdict
    | bool b => simp [JsonValue.isDict] at hdict
    | int m => simp [JsonValue.isDict] at hdict
    | str s => simp [JsonValue.isDict] at hdict
    | list xs => simp [JsonValue.isDict] at hdict
  · intro hw hp hengine
    simp [deploymentsIdExecutionsPost, verifyJsonContentType, hw, hp, hvb, hengine,
      Except.map]

/-- C8 witness: a list-typed parameters field is rejected, a mapping and
an absent field both reach the engine and return 201. -/
theorem c8_witness :
    deploymentsIdExecutionsPost "application/json" bodyExecBadEx none "d1" execWorkflowEx =
      Except.error (ManagerError.badParameters
        ("request body\x27s \x27parameters\x27 field must be a dict but" ++
         " is of type " ++ (JsonValue.list [JsonValue.int 1]).typeName)) ∧
    deploymentsIdExecutionsPost "application/json" bodyExecOkEx none "d1" execWorkflowEx =
      Except.ok (Execution.mk "exec1" "pending", 201) ∧
    deploymentsIdExecutionsPost "application/json" bodyExecEx none "d1" execWorkflowEx =
      Except.ok (Execution.mk "exec1" "pending", 201) := by
  refine ⟨(c8_execute_workflow_parameters bodyExecBadEx (JsonValue.list [JsonValue.int 1])
      (JsonValue.str "install") "d1" execWorkflowEx (Execution.mk "exec1" "pending")).1
      rfl rfl (by intro hEq; cases hEq) rfl,
    (c8_execute_workflow_parameters bodyExecOkEx
      (JsonValue.obj [("key", JsonValue.str "value")])
      (JsonValue.str "install") "d1" execWorkflowEx (Execution.mk "exec1" "pending")).2.1
      rfl rfl rfl rfl,
    (c8_execute_workflow_parameters bodyExecEx JsonValue.null
      (JsonValue.str "install") "d1" execWorkflowEx (Execution.mk "exec1" "pending")).2.2
      rfl rfl rfl⟩

/-- C1: whenever the extracted archive top level is not exactly one entry
that is a directory (zero entries, several entries, or a single file),
extraction fails with BadParameters carrying the message archive must
contain exactly 1 directory, and the temporary extraction directory and
everything below it no longer exist afterwards. -/
theorem c1_extract_requires_single_directory (fileServerRoot tempdir : FsPath)
    (archive : List (FsPath × FSNode)) (uuid4 : String) (fs : FS)
    (h : ((extractedState tempdir archive fs).listdir tempdir).length ≠ 1 ∨
      (extractedState tempdir archive fs).isDir
        (tempdir ++ [((extractedState tempdir archive fs).listdir tempdir).headD ""]) = false) :
    (extractFileToFileServer fileServerRoot tempdir archive uuid4 fs).1 =
      Except.error (ManagerError.badParameters
        "archive must contain exactly 1 directory") ∧
    ∀ q, tempdir.isPrefixOf q = true →
      (extractFileToFileServer fileServerRoot tempdir archive uuid4 fs).2.existsPath q =
        false := by
  have hcond : (((extractedState tempdir archive fs).listdir tempdir).length != 1 ||
      !((extractedState tempdir archive fs).isDir
        (tempdir ++ [((extractedState tempdir archive fs).listdir tempdir).headD ""]))) =
      true := by
    rcases h with h | h
    · rw [bne_iff_ne.mpr h, Bool.true_or]
    · rw [h, Bool.not_false, Bool.or_true]
  have hres : extractFileToFileServer fileServerRoot tempdir archive uuid4 fs =
      (Except.error (ManagerError.badParameters
        "archive must contain exactly 1 directory"),
       (extractedState tempdir archive fs).rmtree tempdir) := by
    simp only [extractFileToFileServer]
    rw [hcond]
    simp
  refine ⟨by rw [hres], ?_⟩
  intro q hq
  rw [hres]
  exact existsPath_rmtree _ _ _ hq

/-- C1 witness: an archive with two top-level directories is rejected and
the temporary directory is gone. -/
theorem c1_witness :
    ((extractedState ["tmp", "x"] [(["a"], FSNode.dir), (["b"], FSNode.dir)]
      (FS.mk [])).listdir ["tmp", "x"]).length ≠ 1 ∧
    (extractFileToFileServer ["root"] ["tmp", "x"]
      [(["a"], FSNode.dir), (["b"], FSNode.dir)] "u" (FS.mk [])).1 =
      Except.error (ManagerError.badParameters
        "archive must contain exactly 1 directory") ∧
    (extractFileToFileServer ["root"] ["tmp", "x"]
      [(["a"], FSNode.dir), (["b"], FSNode.dir)] "u" (FS.mk [])).2.existsPath
      ["tmp", "x"] = false := by
  have h := c1_extract_requires_single_directory ["root"] ["tmp", "x"]
    [(["a"], FSNode.dir), (["b"], FSNode.dir)] "u" (FS.mk []) (Or.inl (by decide))
  exact ⟨by decide, h.1, h.2 ["tmp", "x"] (by decide)⟩

/-- C2: when the external parser raises a parse error, the staged
application directory is removed from the file-server root, the upload
fails with InvalidBlueprint carrying the original detail, and no
blueprint is returned. -/
theorem c2_parse_error_invalid_blueprint (cfg : Config) (applicationDir : String)
    (applicationFileNameArg : Option String) (detail f : String)
    (publish : String → PublishOutcome) (fs : FS)
    (hext : extractApplicationFile cfg.file_server_root applicationDir
      applicationFileNameArg fs = Except.ok f)
    (hpub : publish (cfg.file_server_base_uri ++ "/" ++ f) =
      PublishOutcome.dslParseError detail) :
    prepareAndSubmitBlueprint cfg applicationDir applicationFileNameArg publish fs =
      (Except.error (ManagerError.invalidBlueprint ("Invalid blueprint - " ++ detail)),
        fs.rmtree (cfg.file_server_root ++ [applicationDir])) ∧
    (prepareAndSubmitBlueprint cfg applicationDir applicationFileNameArg
      publish fs).2.existsPath (cfg.file_server_root ++ [applicationDir]) = false ∧
    ∀ bp, (prepareAndSubmitBlueprint cfg applicationDir applicationFileNameArg
      publish fs).1 ≠ Except.ok bp := by
  have h1 : prepareAndSubmitBlueprint cfg applicationDir applicationFileNameArg publish fs =
      (Except.error (ManagerError.invalidBlueprint ("Invalid blueprint - " ++ detail)),
        fs.rmtree (cfg.file_server_root ++ [applicationDir])) := by
    simp [prepareAndSubmitBlueprint, hext, hpub]
  refine ⟨h1, ?_, ?_⟩
  · rw [h1]
    exact existsPath_rmtree _ _ _ (isPrefixOf_self _)
  · intro bp
    rw [h1]
    simp

/-- C2 witness: a staged directory with the conventional entry document
and a parser that rejects it. -/
theorem c2_witness :
    prepareAndSubmitBlueprint cfgEx "app-1" none publishFailEx fsConvEx =
      (Except.error (ManagerError.invalidBlueprint
        ("Invalid blueprint - " ++ "expected one of type, interface")),
        fsConvEx.rmtree (cfgEx.file_server_root ++ ["app-1"])) ∧
    (prepareAndSubmitBlueprint cfgEx "app-1" none publishFailEx fsConvEx).2.existsPath
      (cfgEx.file_server_root ++ ["app-1"]) = false := by
  have h := c2_parse_error_invalid_blueprint cfgEx "app-1" none
    "expected one of type, interface" ("app-1" ++ "/" ++ conventionApplicationBlueprintFile)
    publishFailEx fsConvEx rfl rfl
  exact ⟨h.1, h.2.1⟩

/-- C5: on every exit path of the upload operation, the scratch archive
file no longer exists at its path when the operation returns: the finally
block removes it if the pipeline left it in place. -/
theorem c5_scratch_archive_always_removed (cfg : Config) (req : UploadRequest)
    (archiveTargetPath tempdir : FsPath) (archive : List (FsPath × FSNode))
    (uuid4 : String) (publish : String → PublishOutcome) (fs : FS) :
    (doRequest cfg req archiveTargetPath tempdir archive uuid4
      publish fs).2.existsPath archiveTargetPath = false := by
  have key : ∀ g : FS,
      (if g.existsPath archiveTargetPath then g.removeFile archiveTargetPath
        else g).existsPath archiveTargetPath = false := by
    intro g
    by_cases hg : g.existsPath archiveTargetPath = true
    · simp [hg, existsPath_removeFile]
    · simp only [Bool.not_eq_true] at hg
      simp [hg]
  exact key _

/-- C4: after processing plugins of a published blueprint, every immediate
subdirectory of the plugins directory has a zip archive named after it
written alongside, whose archived entry paths all start with the plugin
directory basename (relative paths), and a blueprint without a plugins
directory is left untouched. -/
theorem c4_plugins_zipped (fs : FS) (fileServerRoot : FsPath) (blueprintId : String) :
    (fs.isDir (pluginsDirectoryOf fileServerRoot blueprintId) = false →
      fs.processPlugins fileServerRoot blueprintId = fs) ∧
    (fs.isDir (pluginsDirectoryOf fileServerRoot blueprintId) = true →
      ∀ d ∈ (fs.listdir (pluginsDirectoryOf fileServerRoot blueprintId)).filter
          (fun d2 => fs.isDir (pluginsDirectoryOf fileServerRoot blueprintId ++ [d2])),
        zipOk (fs.processPlugins fileServerRoot blueprintId)
          (pluginsDirectoryOf fileServerRoot blueprintId ++ [d ++ ".zip"]) d) := by
  constructor
  · intro h
    simp [FS.processPlugins, h]
  · intro h d hd
    have hrw : fs.processPlugins fileServerRoot blueprintId =
        ((fs.listdir (pluginsDirectoryOf fileServerRoot blueprintId)).filter
          (fun d2 => fs.isDir (pluginsDirectoryOf fileServerRoot blueprintId ++ [d2]))).foldl
          (fun acc d2 => acc.zipDir (pluginsDirectoryOf fileServerRoot blueprintId ++ [d2])
            (pluginsDirectoryOf fileServerRoot blueprintId ++ [d2 ++ ".zip"])) fs := by
      simp [FS.processPlugins, h]
    rw [hrw]
    exact zipOk_foldl_mem _ _ _ _ hd

/-- C4 witness: a blueprint with one plugin directory gets its zip with
relative entry paths, and a filesystem without a plugins directory is
unchanged. -/
theorem c4_witness :
    fsPlugEx.isDir (pluginsDirectoryOf ["root"] "bp") = true ∧
    "p1" ∈ (fsPlugEx.listdir (pluginsDirectoryOf ["root"] "bp")).filter
      (fun d2 => fsPlugEx.isDir (pluginsDirectoryOf ["root"] "bp" ++ [d2])) ∧
    zipOk (fsPlugEx.processPlugins ["root"] "bp")
      (pluginsDirectoryOf ["root"] "bp" ++ ["p1" ++ ".zip"]) "p1" ∧
    fsConvEx.processPlugins ["root"] "bp" = fsConvEx := by
  refine ⟨rfl, by decide, ?_, ?_⟩
  · exact (c4_plugins_zipped fsPlugEx ["root"] "bp").2 rfl "p1" (by decide)
  · exact (c4_plugins_zipped fsConvEx ["root"] "bp").1 rfl

end ManagerRest
